import Mathlib

/-!
Shallow embedding of `intra/protect/protect.go` (package `protect` of the
firestack repository) together with the Go 1.17 standard-library routines it
calls (`net.ParseIP`, `net.SplitHostPort`, `net.JoinHostPort`,
`strings.Split`).  The repository's build script (`make-aar`) pins Go 1.17.1,
so the stdlib routines are translated from that release's `net` package.

Strings are modelled as Lean `String`s and scanned as `List Char`.  Go scans
bytes, but every delimiter byte the code ever tests (`.`, `:`, `%`, `[`, `]`,
`,`, digits, hex letters) is ASCII, and in UTF-8 no ASCII byte occurs inside
the encoding of a non-ASCII character, so byte-level scanning and
character-level scanning agree on all inputs.
-/

namespace GoNet

/-- An IP address as in Go's `net.IP`: a byte slice, length 4 or 16. -/
abbrev GoIP := List Nat

/-- Go `net`: `const big = 0xFFFFFF`, the overflow cutoff of `dtoi`/`xtoi`. -/
def bigCutoff : Nat := 0xFFFFFF

/-- Loop of Go `net.dtoi`: consume decimal digits, returning
(value, chars consumed, ok).  Overflow at `bigCutoff` returns
`(bigCutoff, i, false)`; no digit at all returns `(0, 0, false)`. -/
def dtoiLoop : List Char → Nat → Nat → Nat × Nat × Bool
  | [], i, n => if i = 0 then (0, 0, false) else (n, i, true)
  | c :: rest, i, n =>
    if '0' ≤ c ∧ c ≤ '9' then
      let n2 := n * 10 + (c.toNat - '0'.toNat)
      if n2 ≥ bigCutoff then (bigCutoff, i, false)
      else dtoiLoop rest (i + 1) n2
    else if i = 0 then (0, 0, false) else (n, i, true)

/-- Go `net.dtoi`: decimal prefix of `s`. -/
def dtoi (s : List Char) : Nat × Nat × Bool := dtoiLoop s 0 0

/-- Loop of Go `net.xtoi`: consume hexadecimal digits, returning
(value, chars consumed, ok).  Overflow at `bigCutoff` returns
`(0, i, false)`; no digit at all returns `(0, 0, false)`. -/
def xtoiLoop : List Char → Nat → Nat → Nat × Nat × Bool
  | [], i, n => if i = 0 then (0, 0, false) else (n, i, true)
  | c :: rest, i, n =>
    if '0' ≤ c ∧ c ≤ '9' then
      let n2 := n * 16 + (c.toNat - '0'.toNat)
      if n2 ≥ bigCutoff then (0, i, false) else xtoiLoop rest (i + 1) n2
    else if 'a' ≤ c ∧ c ≤ 'f' then
      let n2 := n * 16 + (c.toNat - 'a'.toNat) + 10
      if n2 ≥ bigCutoff then (0, i, false) else xtoiLoop rest (i + 1) n2
    else if 'A' ≤ c ∧ c ≤ 'F' then
      let n2 := n * 16 + (c.toNat - 'A'.toNat) + 10
      if n2 ≥ bigCutoff then (0, i, false) else xtoiLoop rest (i + 1) n2
    else if i = 0 then (0, 0, false) else (n, i, true)

/-- Go `net.xtoi`: hexadecimal prefix of `s`. -/
def xtoi (s : List Char) : Nat × Nat × Bool := xtoiLoop s 0 0

/-- The 12-byte header `v4InV6Prefix` that Go's `net.IPv4` puts before the
four IPv4 bytes: ten zero bytes then `0xff, 0xff`. -/
def v4InV6Header : List Nat := [0, 0, 0, 0, 0, 0, 0, 0, 0, 0, 0xff, 0xff]

/-- One dotted-decimal field of Go 1.17 `net.parseIPv4` (already past the
dot): runs `dtoi`, rejects `!ok`, values above `0xFF`, and non-single-digit
fields with a leading zero; yields the byte and the remaining characters. -/
def parseIPv4Field (s : List Char) : Option (Nat × List Char) :=
  match dtoi s with
  | (n, c, ok) =>
    if ¬ok ∨ n > 0xFF then none
    else if c > 1 ∧ s.head? = some '0' then none
    else some (n, s.drop c)

/-- The `for i := 0; i < IPv4len; i++` loop of Go 1.17 `net.parseIPv4`,
with `fields` counting the octets still to read and `first` true on the
initial iteration (no dot expected).  On success Go returns
`IPv4(p[0],p[1],p[2],p[3])`, the 16-byte v4-in-v6 form. -/
def parseIPv4Loop : Nat → Bool → List Char → List Nat → Option GoIP
  | 0, _, s, acc => if s = [] then some (v4InV6Header ++ acc) else none
  | fields + 1, first, s, acc =>
    if s = [] then none
    else if first then
      match parseIPv4Field s with
      | none => none
      | some (n, s2) => parseIPv4Loop fields false s2 (acc ++ [n])
    else
      match s with
      | [] => none
      | c :: s1 =>
        if c ≠ '.' then none
        else
          match parseIPv4Field s1 with
          | none => none
          | some (n, s2) => parseIPv4Loop fields false s2 (acc ++ [n])

/-- Go 1.17 `net.parseIPv4`. -/
def parseIPv4 (s : List Char) : Option GoIP := parseIPv4Loop 4 true s []

/-- The trailing steps of Go 1.17 `net.parseIPv6` once its loop has stopped
with `s` unconsumed input, `acc` the bytes written so far and `ellipsis` the
byte position of `::` if one was seen: the whole string must be consumed; a
short address needs an ellipsis and is expanded by inserting zero bytes at
the ellipsis position; a full 16-byte address must not contain an ellipsis. -/
def parseIPv6Finish (s : List Char) (acc : List Nat) (ellipsis : Option Nat) :
    Option GoIP :=
  if s ≠ [] then none
  else if acc.length < 16 then
    match ellipsis with
    | none => none
    | some e => some (acc.take e ++ List.replicate (16 - acc.length) 0 ++ acc.drop e)
  else
    match ellipsis with
    | some _ => none
    | none => some acc

/-- The `for i < IPv6len` loop of Go 1.17 `net.parseIPv6`.  `acc` is the
prefix of the 16-byte array written so far (two bytes per hex group, so it
grows by exactly 2 on every recursive call, and the loop guard stops at 16);
`fuel` therefore never reaches 0 from the entry value 8 before the guard
fires, and only bounds the recursion for Lean's termination checker. -/
def parseIPv6Loop : Nat → List Char → List Nat → Option Nat → Option GoIP
  | fuel, s, acc, ellipsis =>
    if 16 ≤ acc.length then parseIPv6Finish s acc ellipsis
    else
      match fuel with
      | 0 => none
      | fuel + 1 =>
        match xtoi s with
        | (n, c, ok) =>
          if ¬ok ∨ n > 0xFFFF then none
          else if s.get? c = some '.' then
            -- trailing IPv4: only at byte 12 unless an ellipsis was seen
            if ellipsis = none ∧ acc.length ≠ 12 then none
            else if acc.length + 4 > 16 then none
            else
              match parseIPv4 s with
              | none => none
              | some ip4 => parseIPv6Finish [] (acc ++ ip4.drop 12) ellipsis
          else
            let acc2 := acc ++ [n / 256, n % 256]
            let s2 := s.drop c
            if s2 = [] then parseIPv6Finish [] acc2 ellipsis
            else if s2.head? ≠ some ':' ∨ s2.length = 1 then none
            else
              let s3 := s2.drop 1
              if s3.head? = some ':' then
                if ellipsis.isSome then none
                else
                  let s4 := s3.drop 1
                  if s4 = [] then parseIPv6Finish [] acc2 (some acc2.length)
                  else parseIPv6Loop fuel s4 acc2 (some acc2.length)
              else parseIPv6Loop fuel s3 acc2 ellipsis

/-- Go 1.17 `net.parseIPv6`: handle a leading `::` (possibly the whole
string), then run the group loop. -/
def parseIPv6 (s : List Char) : Option GoIP :=
  if s.take 2 = [':', ':'] then
    let s2 := s.drop 2
    if s2 = [] then some (List.replicate 16 0)
    else parseIPv6Loop 8 s2 [] (some 0)
  else parseIPv6Loop 8 s [] none

/-- Index of the last occurrence of `c` in `s` (Go `net.last`), or `none`. -/
def lastIdxLoop (c : Char) : List Char → Nat → Option Nat → Option Nat
  | [], _, best => best
  | x :: rest, i, best =>
    lastIdxLoop c rest (i + 1) (if x = c then some i else best)

/-- Index of the last occurrence of `c`, as Go `last(s, b)` (with -1 ↦ none). -/
def lastIdx (s : List Char) (c : Char) : Option Nat := lastIdxLoop c s 0 none

/-- Index of the first occurrence of `c` (Go `bytealg.IndexByteString`). -/
def firstIdxLoop (c : Char) : List Char → Nat → Option Nat
  | [], _ => none
  | x :: rest, i => if x = c then some i else firstIdxLoop c rest (i + 1)

/-- First-occurrence index of `c`, or `none` when absent. -/
def firstIdx (s : List Char) (c : Char) : Option Nat := firstIdxLoop c s 0

/-- Go 1.17 `net.splitHostZone`: the zone starts after the last `%`, and only
when that `%` is at a positive index; otherwise the whole string is host. -/
def splitHostZone (s : List Char) : List Char × List Char :=
  match lastIdx s '%' with
  | some i => if 0 < i then (s.take i, s.drop (i + 1)) else (s, [])
  | none => (s, [])

/-- The character scan of Go 1.17 `net.ParseIP`: the first `.` or `:` decides
between IPv4 and IPv6 syntax (`parseIPv6Zone` strips any `%zone` first). -/
def parseIPScan (orig : List Char) : List Char → Option GoIP
  | [] => none
  | c :: rest =>
    if c = '.' then parseIPv4 orig
    else if c = ':' then parseIPv6 (splitHostZone orig).1
    else parseIPScan orig rest

/-- Go 1.17 `net.ParseIP`. -/
def parseIP (s : String) : Option GoIP := parseIPScan s.data s.data

/-- Go `net.IP.To4`: a 4-byte slice as is, a 16-byte slice only when it has
the `v4InV6Header` shape (ten zero bytes then `0xff 0xff`), else `nil`. -/
def to4 (ip : GoIP) : Option GoIP :=
  if (List.length ip) = 4 then some ip
  else if (List.length ip) = 16 ∧ (List.take 10 ip).all (fun b => b = 0) ∧
      List.get? ip 10 = some 0xff ∧ List.get? ip 11 = some 0xff then
    some (List.drop 12 ip)
  else none

/-- Errors arising in the embedded code.  `noResolvers` is
`errors.New("no resolvers")` in `replaceIP`; `addrError why addr` is Go's
`&net.AddrError{Err: why, Addr: addr}` from `SplitHostPort`;
`cannotParseResolverIP host` is `fmt.Errorf("cannot parse resolver-ip: %s",
orighost)` in `replaceIP`.  (Go quotes the bracket characters in the
`AddrError` messages; the quotes are dropped here, the text is otherwise
Go's.) -/
inductive GoErr where
  | noResolvers : GoErr
  | addrError (why : String) (addr : String) : GoErr
  | cannotParseResolverIP (host : String) : GoErr
deriving DecidableEq

instance {ε α : Type} [DecidableEq ε] [DecidableEq α] : DecidableEq (Except ε α) :=
  fun a b =>
    match a, b with
    | .error x, .error y =>
      if h : x = y then isTrue (congrArg Except.error h)
      else isFalse (fun hh => h (Except.error.inj hh))
    | .ok x, .ok y =>
      if h : x = y then isTrue (congrArg Except.ok h)
      else isFalse (fun hh => h (Except.ok.inj hh))
    | .error _, .ok _ => isFalse Except.noConfusion
    | .ok _, .error _ => isFalse Except.noConfusion

/-- The spec's `InvalidAddress` error class: a host:port that cannot be
split, or a host that is not an IP literal — everything except
`NoResolvers`. -/
def GoErr.isInvalidAddress : GoErr → Bool
  | .noResolvers => false
  | .addrError _ _ => true
  | .cannotParseResolverIP _ => true

/-- Go 1.17 `net.SplitHostPort`: the port starts after the last colon; a
bracketed host `[h]:p` must have `]` immediately before that colon; an
unbracketed host may not contain a colon; no stray brackets are allowed. -/
def splitHostPort (hostport : String) : Except GoErr (String × String) :=
  let s := hostport.data
  match lastIdx s ':' with
  | none => .error (.addrError "missing port in address" hostport)
  | some i =>
    if s.head? = some '[' then
      match firstIdx s ']' with
      | none => .error (.addrError "missing ] in address" hostport)
      | some e =>
        if e + 1 = s.length then
          .error (.addrError "missing port in address" hostport)
        else if e + 1 = i then
          -- the expected shape [host]:port
          if (firstIdx (s.drop 1) '[').isSome then
            .error (.addrError "unexpected [ in address" hostport)
          else if (firstIdx (s.drop (e + 1)) ']').isSome then
            .error (.addrError "unexpected ] in address" hostport)
          else
            .ok (String.mk ((s.take e).drop 1), String.mk (s.drop (i + 1)))
        else if s.get? (e + 1) = some ':' then
          .error (.addrError "too many colons in address" hostport)
        else
          .error (.addrError "missing port in address" hostport)
    else
      if (firstIdx (s.take i) ':').isSome then
        .error (.addrError "too many colons in address" hostport)
      else if (firstIdx s '[').isSome then
        .error (.addrError "unexpected [ in address" hostport)
      else if (firstIdx s ']').isSome then
        .error (.addrError "unexpected ] in address" hostport)
      else
        .ok (String.mk (s.take i), String.mk (s.drop (i + 1)))

/-- Go `net.JoinHostPort`: wrap the host in brackets iff it contains a
colon. -/
def joinHostPort (host port : String) : String :=
  if (firstIdx host.data ':').isSome then "[" ++ host ++ "]:" ++ port
  else host ++ ":" ++ port

/-- `scan` from `protect.go`: return the first entry of `ips` that parses as
an IP of the desired family (`wantV4` ↔ `To4() != nil`); unparseable entries
are skipped; the empty string when none matches. -/
def scan : List String → Bool → String
  | [], _ => ""
  | ip :: rest, wantV4 =>
    match parseIP ip with
    | none => scan rest wantV4
    | some parsed => if ((to4 parsed).isSome == wantV4) then ip else scan rest wantV4

/-- `replaceIP` from `protect.go`: with a non-empty resolver list, split the
transport address, parse its host, substitute the first same-family resolver
(or the first resolver of any family when none matches) and re-join with the
original port. -/
def replaceIP (addr : String) (ips : List String) : Except GoErr String :=
  match ips with
  | [] => .error .noResolvers
  | ip0 :: rest =>
    match splitHostPort addr with
    | .error e => .error e
    | .ok (orighost, port) =>
      match parseIP orighost with
      | none => .error (.cannotParseResolverIP orighost)
      | some origip =>
        let isV4 := (to4 origip).isSome
        let newIP := scan (ip0 :: rest) isV4
        .ok (joinHostPort (if newIP = "" then ip0 else newIP) port)

/-- Tail of `strings.Split(s, ",")`: `cur` holds the characters of the
current field in reverse. -/
def goSplitCommaLoop : List Char → List Char → List String
  | [], cur => [String.mk cur.reverse]
  | c :: rest, cur =>
    if c = ',' then String.mk cur.reverse :: goSplitCommaLoop rest []
    else goSplitCommaLoop rest (c :: cur)

/-- Go `strings.Split(s, ",")`.  In particular `goSplitComma "" = [""]`:
splitting the empty string yields one empty field, never the empty list. -/
def goSplitComma (s : String) : List String := goSplitCommaLoop s.data []

/-- The `Protector` interface of `protect.go`: `Protect(socket int32) bool`
and `GetResolvers() string` (a comma-separated resolver list).  Modelled as
a pure record; `getResolvers` is the string the capability currently
returns. -/
structure Protector where
  protect : Int → Bool
  getResolvers : String

/-- Outcome of one invocation of a socket-control hook: the error the hook
returns to the networking layer, and the diagnostic log events it emitted. -/
structure ControlResult where
  err : Option String
  logs : List String
deriving DecidableEq

/-- The body of the closure `makeControl` passes to `c.Control`: protect the
descriptor; on failure emit the single `log.Errorf` diagnostic.  It has no
way to return an error. -/
def controlCallback (p : Protector) (network : String) (fd : Int) : List String :=
  if p.protect fd then []
  else ["Failed to protect a " ++ network ++ " socket"]

/-- `syscall.RawConn.Control` on a live socket: invoke the callback exactly
once with the socket's descriptor and return `nil`.  (Modelled from the Go
runtime: `Control` itself only fails when the descriptor is unusable, which
is independent of anything the callback does.) -/
def rawConnControl (fd : Int) (f : Int → List String) : ControlResult :=
  { err := none, logs := f fd }

/-- `makeControl` from `protect.go`, applied to a live socket modelled by its
descriptor `fd`: the returned hook is
`func(network, address string, c syscall.RawConn) error` and simply returns
`c.Control(callback)`. -/
def makeControl (p : Protector) (network : String) (_address : String)
    (fd : Int) : ControlResult :=
  rawConnControl fd (controlCallback p network)

/-- The dial the resolver override performs on success:
`d.DialContext(ctx, network, newAddress)` on the very dialer `d` built by
`MakeDialer` — recorded symbolically to capture that the resolver connection
reuses the same protected dialer. -/
inductive DialAction where
  | dialViaSelf (network : String) (address : String)
deriving DecidableEq

/-- The `resolverDialer` closure inside `MakeDialer`: split the protector's
resolver string on commas, rewrite the resolver address with `replaceIP`,
fail with exactly the rewrite's error, otherwise dial the rewritten address
through the same dialer. -/
def resolverDialer (p : Protector) (network address : String) :
    Except GoErr DialAction :=
  let resolvers := goSplitComma p.getResolvers
  match replaceIP address resolvers with
  | .error err => .error err
  | .ok newAddress => .ok (.dialViaSelf network newAddress)

/-- The fields of Go's `net.Resolver` that `MakeDialer` sets: `PreferGo` and
the `Dial` override (zero value: `false`, `none`). -/
structure GoResolver where
  preferGo : Bool := false
  dial : Option (String → String → Except GoErr DialAction) := none

/-- The fields of Go's `net.Dialer` that `MakeDialer` touches: `Control` and
`Resolver`.  The zero value `net.Dialer{}` has both `nil`.  (The remaining
public fields — timeouts, keep-alive, … — are never written by the code and
are omitted.) -/
structure GoDialer where
  control : Option (String → String → Int → ControlResult) := none
  resolver : Option GoResolver := none

/-- The field of Go's `net.ListenConfig` that the code touches: `Control`
(zero value `nil`). -/
structure GoListenConfig where
  control : Option (String → String → Int → ControlResult) := none

/-- `MakeDialer` from `protect.go`: a nil protector yields `&net.Dialer{}`;
otherwise the control hook is `makeControl p` and the resolver is
`&net.Resolver{PreferGo: true, Dial: resolverDialer}`. -/
def MakeDialer (p : Option Protector) : GoDialer :=
  match p with
  | none => {}
  | some p =>
    { control := some (makeControl p)
      resolver := some { preferGo := true, dial := some (resolverDialer p) } }

/-- `MakeListenConfig` from `protect.go`: a nil protector yields
`&net.ListenConfig{}`; otherwise only the control hook is set. -/
def MakeListenConfig (p : Option Protector) : GoListenConfig :=
  match p with
  | none => {}
  | some p => { control := some (makeControl p) }

/-- A resolver-list entry "matches" the wanted family when it parses as an IP
whose `To4`-classification equals the wanted flag — exactly the condition on
which `scan` selects an entry. -/
def familyMatches (r : String) (wantV4 : Bool) : Bool :=
  match parseIP r with
  | none => false
  | some parsed => (to4 parsed).isSome == wantV4

/-! ### Helper lemmas -/

lemma familyMatches_empty (w : Bool) : familyMatches "" w = false := rfl

lemma scan_cons (ip : String) (rest : List String) (w : Bool) :
    scan (ip :: rest) w = if familyMatches ip w then ip else scan rest w := by
  cases hp : parseIP ip
  all_goals simp only [scan, familyMatches, hp]
  all_goals simp

/-- `scan` either returns `""` with no entry matching the wanted family, or
returns an entry of the list that matches while every earlier entry does
not. -/
lemma scan_spec (ips : List String) (w : Bool) :
    (scan ips w = "" ∧ ∀ r ∈ ips, familyMatches r w = false) ∨
    (∃ i, ips.get? i = some (scan ips w) ∧ familyMatches (scan ips w) w = true ∧
      ∀ j x, j < i → ips.get? j = some x → familyMatches x w = false) := by
  induction ips with
  | nil => exact Or.inl ⟨rfl, by simp⟩
  | cons ip rest ih =>
    by_cases hm : familyMatches ip w = true
    · right
      refine ⟨0, ?_, ?_, ?_⟩
      · simp [scan_cons, hm]
      · simp [scan_cons, hm]
      · intro j x hj _
        omega
    · have hm2 : familyMatches ip w = false := by
        cases h : familyMatches ip w
        · rfl
        · exact absurd h hm
      have hsc : scan (ip :: rest) w = scan rest w := by simp [scan_cons, hm2]
      rcases ih with ⟨h1, h2⟩ | ⟨i, hget, hfam, hfirst⟩
      · left
        refine ⟨by rw [hsc, h1], ?_⟩
        intro r hr
        rcases List.mem_cons.mp hr with rfl | hr2
        · exact hm2
        · exact h2 r hr2
      · right
        refine ⟨i + 1, ?_, ?_, ?_⟩
        · simpa [hsc] using hget
        · rwa [hsc]
        · intro j x hj hx
          cases j with
          | zero =>
            simp only [List.get?_cons_zero, Option.some.injEq] at hx
            subst hx
            exact hm2
          | succ j2 =>
            exact hfirst j2 x (by omega) (by simpa using hx)

lemma scan_mem (ips : List String) (w : Bool) (h : scan ips w ≠ "") :
    scan ips w ∈ ips := by
  rcases scan_spec ips w with ⟨h1, _⟩ | ⟨i, hget, _, _⟩
  · exact absurd h1 h
  · exact List.get?_mem hget

lemma scan_eq_empty (ips : List String) (w : Bool)
    (h : ∀ r ∈ ips, familyMatches r w = false) : scan ips w = "" := by
  induction ips with
  | nil => rfl
  | cons ip rest ih =>
    have h0 : familyMatches ip w = false := h ip (List.mem_cons_self ip rest)
    rw [scan_cons, h0, if_neg Bool.false_ne_true]
    exact ih (fun r hr => h r (List.mem_cons_of_mem ip hr))

/-- Every error `splitHostPort` produces is an `addrError` on its input. -/
lemma splitHostPort_error_shape (a : String) (e : GoErr)
    (h : splitHostPort a = .error e) : ∃ why, e = GoErr.addrError why a := by
  simp only [splitHostPort] at h
  repeat' split at h
  all_goals
    first
      | exact Except.noConfusion h
      | (injection h with h2; exact ⟨_, h2.symm⟩)

/-! ### Claims -/

/-- C1: For every transport address string that splits into host:port with a
host that parses as an IP literal, and every resolver list containing at
least one entry of the same family as that host, `replaceIP` succeeds and
returns the join of the first same-family entry of the list with the
original port (the returned address's host is that entry, its port the
original port). -/
theorem claim_C1_rewrite_same_family (addr host port : String) (ip : GoIP)
    (ips : List String)
    (hsplit : splitHostPort addr = .ok (host, port))
    (hparse : parseIP host = some ip)
    (hmem : ∃ r ∈ ips, familyMatches r (to4 ip).isSome = true) :
    ∃ h i, ips.get? i = some h ∧ familyMatches h (to4 ip).isSome = true ∧
      (∀ j x, j < i → ips.get? j = some x →
        familyMatches x (to4 ip).isSome = false) ∧
      replaceIP addr ips = .ok (joinHostPort h port) := by
  obtain ⟨r, hr, hfam⟩ := hmem
  cases ips with
  | nil => cases hr
  | cons ip0 rest =>
    rcases scan_spec (ip0 :: rest) (to4 ip).isSome with ⟨_, hall⟩ | ⟨i, hget, hf, hfirst⟩
    · rw [hall r hr] at hfam
      cases hfam
    · have hne : scan (ip0 :: rest) (to4 ip).isSome ≠ "" := by
        intro h0
        rw [h0, familyMatches_empty] at hf
        cases hf
      refine ⟨scan (ip0 :: rest) (to4 ip).isSome, i, hget, hf, hfirst, ?_⟩
      simp only [replaceIP, hsplit, hparse]
      rw [if_neg hne]

theorem claim_C1_witness :
    splitHostPort "8.8.8.8:53" = .ok ("8.8.8.8", "53") ∧
    parseIP "8.8.8.8" = some (v4InV6Header ++ [8, 8, 8, 8]) ∧
    (∃ h i, (["2001:db8::1", "10.0.0.1", "10.0.0.2"] : List String).get? i = some h ∧
      familyMatches h (to4 (v4InV6Header ++ [8, 8, 8, 8])).isSome = true ∧
      (∀ j x, j < i →
        (["2001:db8::1", "10.0.0.1", "10.0.0.2"] : List String).get? j = some x →
        familyMatches x (to4 (v4InV6Header ++ [8, 8, 8, 8])).isSome = false) ∧
      replaceIP "8.8.8.8:53" ["2001:db8::1", "10.0.0.1", "10.0.0.2"] =
        .ok (joinHostPort h "53")) :=
  ⟨by decide, by decide,
    claim_C1_rewrite_same_family "8.8.8.8:53" "8.8.8.8" "53"
      (v4InV6Header ++ [8, 8, 8, 8]) ["2001:db8::1", "10.0.0.1", "10.0.0.2"]
      (by decide) (by decide) ⟨"10.0.0.1", by decide, by decide⟩⟩

/-- C2: For every well-formed transport address whose host is an IP literal,
and every non-empty resolver list with no entry of the host's family,
`replaceIP` succeeds and returns the first entry of the list (whatever its
family) joined with the original port. -/
theorem claim_C2_rewrite_fallback_first (addr host port : String) (ip : GoIP)
    (ip0 : String) (rest : List String)
    (hsplit : splitHostPort addr = .ok (host, port))
    (hparse : parseIP host = some ip)
    (hnone : ∀ r ∈ ip0 :: rest, familyMatches r (to4 ip).isSome = false) :
    replaceIP addr (ip0 :: rest) = .ok (joinHostPort ip0 port) := by
  have hsc : scan (ip0 :: rest) (to4 ip).isSome = "" := scan_eq_empty _ _ hnone
  simp only [replaceIP, hsplit, hparse]
  rw [hsc]
  simp

theorem claim_C2_witness :
    splitHostPort "8.8.8.8:53" = .ok ("8.8.8.8", "53") ∧
    parseIP "8.8.8.8" = some (v4InV6Header ++ [8, 8, 8, 8]) ∧
    (∀ r ∈ ["2001:db8::1"],
      familyMatches r (to4 (v4InV6Header ++ [8, 8, 8, 8])).isSome = false) ∧
    replaceIP "8.8.8.8:53" ["2001:db8::1"] = .ok "[2001:db8::1]:53" :=
  ⟨by decide, by decide, by decide,
    claim_C2_rewrite_fallback_first "8.8.8.8:53" "8.8.8.8" "53"
      (v4InV6Header ++ [8, 8, 8, 8]) "2001:db8::1" []
      (by decide) (by decide) (by decide)⟩

/-- C3: Whenever `replaceIP` succeeds, the returned address is the join of
some element of the supplied resolver list with the port split off the input
address: the rewrite never invents a host outside the list and never alters
the port. -/
theorem claim_C3_rewrite_invariant (addr : String) (ips : List String)
    (res : String) (h : replaceIP addr ips = .ok res) :
    ∃ host port newHost, splitHostPort addr = .ok (host, port) ∧
      newHost ∈ ips ∧ res = joinHostPort newHost port := by
  cases ips with
  | nil => exact absurd h (by simp [replaceIP])
  | cons ip0 rest =>
    simp only [replaceIP] at h
    cases hsp : splitHostPort addr with
    | error e =>
      rw [hsp] at h
      exact Except.noConfusion h
    | ok pr =>
      obtain ⟨host, port⟩ := pr
      simp only [hsp] at h
      cases hpi : parseIP host with
      | none =>
        rw [hpi] at h
        exact Except.noConfusion h
      | some origip =>
        simp only [hpi] at h
        have h2 : joinHostPort
            (if scan (ip0 :: rest) (to4 origip).isSome = "" then ip0
             else scan (ip0 :: rest) (to4 origip).isSome) port = res :=
          Except.ok.inj h
        by_cases hsc : scan (ip0 :: rest) (to4 origip).isSome = ""
        · rw [if_pos hsc] at h2
          exact ⟨host, port, ip0, rfl, List.mem_cons_self ip0 rest, h2.symm⟩
        · rw [if_neg hsc] at h2
          exact ⟨host, port, _, rfl,
            scan_mem (ip0 :: rest) (to4 origip).isSome hsc, h2.symm⟩

theorem claim_C3_witness :
    replaceIP "8.8.8.8:53" ["10.0.0.1"] = .ok "10.0.0.1:53" ∧
    (∃ host port newHost, splitHostPort "8.8.8.8:53" = .ok (host, port) ∧
      newHost ∈ ["10.0.0.1"] ∧ "10.0.0.1:53" = joinHostPort newHost port) :=
  ⟨by decide,
    claim_C3_rewrite_invariant "8.8.8.8:53" ["10.0.0.1"] "10.0.0.1:53" (by decide)⟩

/-- C4: With an empty resolver list `replaceIP` fails with the `NoResolvers`
error for every input address — including addresses that cannot be split or
parsed, which shows the empty-list check comes before any splitting or
parsing of the address. -/
theorem claim_C4_empty_list_noResolvers (addr : String) :
    replaceIP addr [] = .error .noResolvers := rfl

/-- C5: With a non-empty resolver list, `replaceIP` fails whenever the input
address cannot be split as host:port (propagating exactly the split error)
or the host does not parse as an IP literal (a cannot-parse error); in both
cases the error is in the spec's `InvalidAddress` class and no substituted
address is produced. -/
theorem claim_C5_invalid_address (addr ip0 : String) (rest : List String) :
    (∀ e, splitHostPort addr = .error e →
      replaceIP addr (ip0 :: rest) = .error e ∧ e.isInvalidAddress = true) ∧
    (∀ host port, splitHostPort addr = .ok (host, port) → parseIP host = none →
      replaceIP addr (ip0 :: rest) = .error (.cannotParseResolverIP host) ∧
        (GoErr.cannotParseResolverIP host).isInvalidAddress = true) := by
  constructor
  · intro e he
    refine ⟨by simp only [replaceIP, he], ?_⟩
    obtain ⟨why, rfl⟩ := splitHostPort_error_shape addr e he
    rfl
  · intro host port hsp hpi
    exact ⟨by simp only [replaceIP, hsp, hpi], rfl⟩

theorem claim_C5_witness :
    (splitHostPort "8.8.8.8" =
        .error (.addrError "missing port in address" "8.8.8.8") ∧
      replaceIP "8.8.8.8" ["10.0.0.1"] =
        .error (.addrError "missing port in address" "8.8.8.8") ∧
      (GoErr.addrError "missing port in address" "8.8.8.8").isInvalidAddress = true) ∧
    (splitHostPort "nothost:53" = .ok ("nothost", "53") ∧
      parseIP "nothost" = none ∧
      replaceIP "nothost:53" ["10.0.0.1"] =
        .error (.cannotParseResolverIP "nothost") ∧
      (GoErr.cannotParseResolverIP "nothost").isInvalidAddress = true) :=
  ⟨⟨by decide,
    (claim_C5_invalid_address "8.8.8.8" "10.0.0.1" []).1 _ (by decide)⟩,
   ⟨by decide, by decide,
    (claim_C5_invalid_address "nothost:53" "10.0.0.1" []).2 "nothost" "53"
      (by decide) (by decide)⟩⟩

/-- C6: `scan` is deterministic (it is a pure function of the list and the
flag), and it returns either the empty string — exactly when no entry of the
list parses as an IP of the wanted family, unparseable entries being
silently skipped — or the first entry in list order whose parsed family
matches the flag. -/
theorem claim_C6_matcher (ips : List String) (wantV4 : Bool) :
    (∀ ips2 w2, ips2 = ips → w2 = wantV4 → scan ips2 w2 = scan ips wantV4) ∧
    ((scan ips wantV4 = "" ∧ ∀ r ∈ ips, familyMatches r wantV4 = false) ∨
      (∃ i, ips.get? i = some (scan ips wantV4) ∧
        familyMatches (scan ips wantV4) wantV4 = true ∧
        ∀ j x, j < i → ips.get? j = some x → familyMatches x wantV4 = false)) :=
  ⟨fun _ _ h1 h2 => by rw [h1, h2], scan_spec ips wantV4⟩

theorem claim_C6_witness :
    (∀ ips2 w2, ips2 = ["bad", "10.0.0.1", "10.0.0.2"] → w2 = true →
      scan ips2 w2 = scan ["bad", "10.0.0.1", "10.0.0.2"] true) ∧
    ((scan ["bad", "10.0.0.1", "10.0.0.2"] true = "" ∧
        ∀ r ∈ ["bad", "10.0.0.1", "10.0.0.2"], familyMatches r true = false) ∨
      (∃ i, (["bad", "10.0.0.1", "10.0.0.2"] : List String).get? i =
          some (scan ["bad", "10.0.0.1", "10.0.0.2"] true) ∧
        familyMatches (scan ["bad", "10.0.0.1", "10.0.0.2"] true) true = true ∧
        ∀ j x, j < i →
          (["bad", "10.0.0.1", "10.0.0.2"] : List String).get? j = some x →
          familyMatches x true = false)) :=
  claim_C6_matcher ["bad", "10.0.0.1", "10.0.0.2"] true

/-- C7: When the control hook built by `makeControl` runs on a socket whose
protection attempt fails (`Protect` returns false), the hook still returns
no error — the connection attempt is not aborted — and emits exactly one
protection-failure diagnostic for that socket. -/
theorem claim_C7_protect_failure_nonfatal (p : Protector)
    (network address : String) (fd : Int) (h : p.protect fd = false) :
    makeControl p network address fd =
      { err := none, logs := ["Failed to protect a " ++ network ++ " socket"] } := by
  simp [makeControl, rawConnControl, controlCallback, h]

theorem claim_C7_witness :
    (Protector.mk (fun _ => false) "").protect 3 = false ∧
    makeControl ⟨fun _ => false, ""⟩ "tcp" "93.184.216.34:443" 3 =
      { err := none, logs := ["Failed to protect a tcp socket"] } :=
  ⟨rfl,
    claim_C7_protect_failure_nonfatal ⟨fun _ => false, ""⟩ "tcp"
      "93.184.216.34:443" 3 rfl⟩

/-- C8: The dialer built by `MakeDialer` from a non-nil protector carries the
resolver override `resolverDialer`; that override fails with exactly the
rewrite's error when `replaceIP` fails on the comma-split resolver list (no
connection is attempted), and on success dials the rewritten address through
the same dialer (`dialViaSelf`). -/
theorem claim_C8_resolver_dial (p : Protector) (network address : String) :
    (MakeDialer (some p)).resolver =
      some { preferGo := true, dial := some (resolverDialer p) } ∧
    (∀ err, replaceIP address (goSplitComma p.getResolvers) = .error err →
      resolverDialer p network address = .error err) ∧
    (∀ newAddress, replaceIP address (goSplitComma p.getResolvers) = .ok newAddress →
      resolverDialer p network address = .ok (.dialViaSelf network newAddress)) := by
  refine ⟨rfl, ?_, ?_⟩
  · intro err h
    simp only [resolverDialer, h]
  · intro newAddress h
    simp only [resolverDialer, h]

theorem claim_C8_witness :
    replaceIP "8.8.8.8:53" (goSplitComma "10.0.0.1,10.0.0.2") = .ok "10.0.0.1:53" ∧
    resolverDialer ⟨fun _ => true, "10.0.0.1,10.0.0.2"⟩ "udp" "8.8.8.8:53" =
      .ok (.dialViaSelf "udp" "10.0.0.1:53") :=
  ⟨by decide,
    (claim_C8_resolver_dial ⟨fun _ => true, "10.0.0.1,10.0.0.2"⟩ "udp"
      "8.8.8.8:53").2.2 "10.0.0.1:53" (by decide)⟩

/-- C9: With a nil protector, `MakeDialer` returns the zero-value dialer (no
control hook, no resolver override) and `MakeListenConfig` returns the
zero-value listen configuration (no control hook). -/
theorem claim_C9_nil_protector_defaults :
    MakeDialer none = { control := none, resolver := none } ∧
    MakeListenConfig none = { control := none } :=
  ⟨rfl, rfl⟩

/-- C10: When no resolver-list entry matches the query's family, `replaceIP`
substitutes the literal first entry even when that entry does not parse as
an IP address, and does not fail with `NoResolvers`; in particular (see the
witness) an empty `GetResolvers` string comma-splits to `[""]`, so the
rewrite of "8.8.8.8:53" succeeds with an empty host, producing ":53". -/
theorem claim_C10_fallback_unparseable_first (addr host port : String)
    (ip : GoIP) (ip0 : String) (rest : List String)
    (hsplit : splitHostPort addr = .ok (host, port))
    (hparse : parseIP host = some ip)
    (hscan : scan (ip0 :: rest) (to4 ip).isSome = "") :
    replaceIP addr (ip0 :: rest) = .ok (joinHostPort ip0 port) ∧
    replaceIP addr (ip0 :: rest) ≠ .error .noResolvers := by
  have h1 : replaceIP addr (ip0 :: rest) = .ok (joinHostPort ip0 port) := by
    simp only [replaceIP, hsplit, hparse]
    rw [hscan]
    simp
  refine ⟨h1, ?_⟩
  rw [h1]
  exact fun hc => Except.noConfusion hc

theorem claim_C10_witness :
    goSplitComma "" = [""] ∧
    parseIP "" = none ∧
    replaceIP "8.8.8.8:53" (goSplitComma "") = .ok ":53" ∧
    replaceIP "8.8.8.8:53" (goSplitComma "") ≠ .error .noResolvers :=
  ⟨by decide, rfl,
    (claim_C10_fallback_unparseable_first "8.8.8.8:53" "8.8.8.8" "53"
      (v4InV6Header ++ [8, 8, 8, 8]) "" [] (by decide) (by decide) (by decide)).1,
    (claim_C10_fallback_unparseable_first "8.8.8.8:53" "8.8.8.8" "53"
      (v4InV6Header ++ [8, 8, 8, 8]) "" [] (by decide) (by decide) (by decide)).2⟩

end GoNet
